import Mathlib

/-!
Shallow embedding of the BIP-39 mnemonic codec from ts_src/index.ts
(MetaMask bip39 fork).

Modelling conventions:
  - A Node Buffer is a `List Nat` of byte values (each value 0..255 at runtime;
    the type is Nat and boundedness is hypothesised where a theorem needs it).
  - A JavaScript binary string of "0"/"1" characters is a `List Bool`.
  - A wordlist entry (a JS string) is its UTF-8 byte list, `List Nat`;
    JS string equality coincides with byte-list equality for UTF-8 text.
  - The external primitives that the repository does not implement are
    parameters: `H` models createHash("sha256").update(e).digest() (a
    32-byte digest per the spec), `nfkd` models
    s => Buffer.from(String(s).normalize("NFKD"), "utf8") acting on UTF-8
    byte lists, and `pbkdf2` models pbkdf2Sync from the pbkdf2 package.
  - The process-wide mutable DEFAULT_WORDLIST is passed explicitly as the
    `dflt : Option Wordlist` argument; the functions resolve
    `wordlist || DEFAULT_WORDLIST` exactly as the source does.
  - Thrown JS errors become the `Outcome.error` constructor carrying the
    error kind that matches the thrown message.
-/

/-- Error kinds of the library, one per distinct thrown message. -/
inductive Bip39Error where
  | invalidMnemonic
  | invalidEntropy
  | invalidChecksum
  | wordlistRequired
  | unknownWordlist
  | noDefaultWordlist
deriving DecidableEq

/-- Result of a library function that may throw. -/
inductive Outcome (α : Type) where
  | ok : α → Outcome α
  | error : Bip39Error → Outcome α
deriving DecidableEq

/-- True exactly when the computation did not throw. -/
def Outcome.isOk {α : Type} : Outcome α → Bool
  | .ok _ => true
  | .error _ => false

/-- A wordlist: ordered list of words, each a UTF-8 byte list. -/
abbrev Wordlist := List (List Nat)

/-- The mnemonic argument of mnemonicToEntropy / mnemonicToSeedSync:
either a JS string (still to be NFKD-normalized and UTF-8 encoded)
or an already-built Buffer. -/
inductive MnemonicInput where
  | str : List Nat → MnemonicInput
  | buf : List Nat → MnemonicInput

/-- lpad(str, "0", length): prepend the pad character until the target
length is reached; never truncates.  The while loop prepending one "0"
at a time is equivalent to prepending (length - str.length) zeros. -/
def lpad (targetLen : Nat) (bits : List Bool) : List Bool :=
  List.replicate (targetLen - bits.length) false ++ bits

/-- Little-endian bit list of n (fuel-driven; fuel at least n suffices). -/
def natBitsLE : Nat → Nat → List Bool
  | 0, _ => []
  | fuel + 1, n =>
    if n = 0 then [] else decide (n % 2 = 1) :: natBitsLE fuel (n / 2)

/-- x.toString(2): most-significant-bit-first binary digits, "0" for 0. -/
def natToBits (n : Nat) : List Bool :=
  if n = 0 then [false] else (natBitsLE n n).reverse

/-- bytesToBinary: concatenation of each byte rendered as an 8-character
zero-left-padded binary string. -/
def bytesToBinary (bytes : List Nat) : List Bool :=
  bytes.flatMap (fun x => lpad 8 (natToBits x))

/-- binaryToByte: parseInt(bin, 2) on a nonempty binary string. -/
def binaryToByte (bits : List Bool) : Nat :=
  bits.foldl (fun acc b => 2 * acc + (if b then 1 else 0)) 0

/-- deriveChecksumBits: ENT = 8 * length, CS = ENT / 32; the first CS
binary digits of the sha256 digest of the entropy.  `H` is the external
hash primitive (createHash("sha256")). -/
def deriveChecksumBits (H : List Nat → List Nat) (entropyBuffer : List Nat) :
    List Bool :=
  (bytesToBinary (H entropyBuffer)).take (entropyBuffer.length * 8 / 32)

/-- Fuel-driven grouping of a bit string into chunks of at most k bits,
mirroring str.match over the regex of 1-to-k arbitrary characters:
greedy full groups, shorter final group. -/
def chunkAux (k : Nat) : Nat → List Bool → List (List Bool)
  | 0, _ => []
  | fuel + 1, l =>
    if l = [] then [] else l.take k :: chunkAux k fuel (l.drop k)

/-- Grouping with enough fuel for the whole list. -/
def chunkBits (k : Nat) (l : List Bool) : List (List Bool) :=
  chunkAux k l.length l

/-- The byte-scanning word splitter of mnemonicToEntropy: a new word
starts after every byte equal to 0x20 or equal to 0x3000.  The second
comparison reproduces the source test byte === 0x3000 verbatim: it is
part of the embedded code even though a Buffer byte is always below
0x100. -/
def splitWordsAux : List Nat → List Nat → List (List Nat)
  | acc, [] => [acc.reverse]
  | acc, b :: rest =>
    if b = 0x20 ∨ b = 0x3000 then acc.reverse :: splitWordsAux [] rest
    else splitWordsAux (b :: acc) rest

/-- words accumulated by the for-of loop plus the final push. -/
def splitWords (bytes : List Nat) : List (List Nat) :=
  splitWordsAux [] bytes

/-- Buffer.from(normalize(wordlist[index]), "utf8"):
an in-range index yields the NFKD-normalized word; an out-of-range index
yields Buffer.from(normalize(undefined)) = the empty buffer. -/
def lookupWordNormalized (nfkd : List Nat → List Nat) (wl : Wordlist)
    (i : Nat) : List Nat :=
  match wl.get? i with
  | some w => nfkd w
  | none => []

/-- UTF-8 bytes of the first word of the Japanese wordlist,
U+3042 U+3044 U+3053 U+304F U+3057 U+3093. -/
def jaFirstWord : List Nat :=
  [227, 129, 130, 227, 129, 132, 227, 129, 147,
   227, 129, 143, 227, 129, 151, 227, 130, 147]

/-- UTF-8 bytes of the ideographic space U+3000. -/
def ideographicSpace : List Nat := [227, 128, 128]

/-- UTF-8 bytes of the ASCII space. -/
def asciiSpace : List Nat := [32]

/-- Separator selection of entropyToMnemonic: ideographic space when the
first wordlist entry equals the known Japanese first word, else space. -/
def separatorFor (wl : Wordlist) : List Nat :=
  if wl.headD [] = jaFirstWord then ideographicSpace else asciiSpace

/-- The working-buffer assembly of entropyToMnemonic: each word followed
by one separator except after the last word (offset bookkeeping of the
two reduce passes collapses to interleaving). -/
def joinWords (sep : List Nat) : List (List Nat) → List Nat
  | [] => []
  | [w] => w
  | w :: ws => w ++ sep ++ joinWords sep ws

/-- The word sequence of entropyToMnemonic: 11-bit chunks of
entropyBits ++ checksumBits, each chunk indexing the wordlist. -/
def mnemonicWords (H nfkd : List Nat → List Nat) (wl : Wordlist)
    (entropy : List Nat) : List (List Nat) :=
  (chunkBits 11 (bytesToBinary entropy ++ deriveChecksumBits H entropy)).map
    (fun chunk => lookupWordNormalized nfkd wl (binaryToByte chunk))

/-- entropyToMnemonic on the Buffer input path (the hex-string input
path only converts to a Buffer first and is not exercised by the
claims).  Resolves wordlist || DEFAULT_WORDLIST, validates the entropy
length, then emits the separator-joined word buffer. -/
def entropyToMnemonic (H nfkd : List Nat → List Nat) (entropy : List Nat)
    (wordlist dflt : Option Wordlist) : Outcome (List Nat) :=
  match wordlist.orElse (fun _ => dflt) with
  | none => .error .wordlistRequired
  | some wl =>
    if entropy.length < 16 then .error .invalidEntropy
    else if entropy.length > 32 then .error .invalidEntropy
    else if entropy.length % 4 ≠ 0 then .error .invalidEntropy
    else .ok (joinWords (separatorFor wl) (mnemonicWords H nfkd wl entropy))

/-- wordlist.indexOf of each word in order; the first missing word
throws Invalid mnemonic. -/
def wordsToIndices (wl : Wordlist) : List (List Nat) → Outcome (List Nat)
  | [] => .ok []
  | w :: ws =>
    match wl.findIdx? (fun x => x == w) with
    | none => .error .invalidMnemonic
    | some i =>
      match wordsToIndices wl ws with
      | .ok is => .ok (i :: is)
      | .error e => .error e

/-- One lowercase hexadecimal digit as an ASCII byte. -/
def hexDigitChar (n : Nat) : Nat :=
  if n < 10 then 48 + n else 87 + n

/-- Buffer.toString("hex"): two lowercase hex digits per byte. -/
def toHex (bytes : List Nat) : List Nat :=
  bytes.flatMap (fun b => [hexDigitChar (b / 16), hexDigitChar (b % 16)])

/-- mnemonicToEntropy: resolves the wordlist, NFKD-normalizes and UTF-8
encodes a string argument (a Buffer argument is used as-is), splits the
bytes into words, maps words to 11-bit indices, splits the bit string at
floor(bits/33)*32 into entropy and checksum, re-validates the entropy
length, recomputes the checksum and returns the lowercase hex string of
the entropy bytes. -/
def mnemonicToEntropy (H nfkd : List Nat → List Nat) (m : MnemonicInput)
    (wordlist dflt : Option Wordlist) : Outcome (List Nat) :=
  match wordlist.orElse (fun _ => dflt) with
  | none => .error .wordlistRequired
  | some wl =>
    let mnemonicAsBuffer := match m with | .str s => nfkd s | .buf b => b
    let words := splitWords mnemonicAsBuffer
    if words.length % 3 ≠ 0 then .error .invalidMnemonic
    else
      match wordsToIndices wl words with
      | .error e => .error e
      | .ok indices =>
        let bits := indices.flatMap (fun i => lpad 11 (natToBits i))
        let dividerIndex := bits.length / 33 * 32
        let entropyBits := bits.take dividerIndex
        let checksumBits := bits.drop dividerIndex
        let entropyBytes := (chunkBits 8 entropyBits).map binaryToByte
        if entropyBytes.length < 16 then .error .invalidEntropy
        else if entropyBytes.length > 32 then .error .invalidEntropy
        else if entropyBytes.length % 4 ≠ 0 then .error .invalidEntropy
        else if deriveChecksumBits H entropyBytes ≠ checksumBits then
          .error .invalidChecksum
        else .ok (toHex entropyBytes)

/-- validateMnemonic: try/catch around mnemonicToEntropy on a string
mnemonic; any thrown error becomes false. -/
def validateMnemonic (H nfkd : List Nat → List Nat) (m : List Nat)
    (wordlist dflt : Option Wordlist) : Bool :=
  match mnemonicToEntropy H nfkd (.str m) wordlist dflt with
  | .ok _ => true
  | .error _ => false

/-- generateMnemonic: strength || 128 (so 0 falls back to the default),
divisibility-by-32 check, then entropyToMnemonic over rng(strength / 8).
The rng default (the external randombytes) is left to the caller. -/
def generateMnemonic (H nfkd : List Nat → List Nat) (strength : Option Nat)
    (rng : Nat → List Nat) (wordlist dflt : Option Wordlist) :
    Outcome (List Nat) :=
  let s := match strength with
    | none => 128
    | some v => if v = 0 then 128 else v
  if s % 32 ≠ 0 then .error .invalidEntropy
  else entropyToMnemonic H nfkd (rng (s / 8)) wordlist dflt

/-- UTF-8 bytes of the literal "mnemonic". -/
def mnemonicLiteral : List Nat := [109, 110, 101, 109, 111, 110, 105, 99]

/-- salt(password): "mnemonic" + (password || ""). -/
def saltBytes (password : List Nat) : List Nat :=
  mnemonicLiteral ++ password

/-- normalize(str?): (str || "").normalize("NFKD"), on UTF-8 byte
lists; an absent string normalizes the empty string. -/
def normalizeOpt (nfkd : List Nat → List Nat) (p : Option (List Nat)) :
    List Nat :=
  nfkd (p.getD [])

/-- mnemonicToSeedSync: a string mnemonic is NFKD-normalized and UTF-8
encoded, a Buffer mnemonic is used unchanged; the salt is
"mnemonic" + normalize(password); pbkdf2Sync with 2048 iterations,
64-byte key length and sha512.  `pbkdf2` is the external primitive
taking password, salt, iterations, keylen and digest name. -/
def mnemonicToSeedSync
    (pbkdf2 : List Nat → List Nat → Nat → Nat → String → List Nat)
    (nfkd : List Nat → List Nat) (mnemonic : MnemonicInput)
    (password : Option (List Nat)) : List Nat :=
  let mnemonicBuffer := match mnemonic with | .str s => nfkd s | .buf b => b
  let saltBuffer := saltBytes (normalizeOpt nfkd password)
  pbkdf2 mnemonicBuffer saltBuffer 2048 64 "sha512"

/-- The wordlist registry of _wordlists, modelled from the spec (the
data module is not under src/): an insertion-ordered association list
from language identifier to wordlist, mirroring Object.keys order. -/
abbrev Registry := List (String × Wordlist)

/-- wordlists[language]: first binding of the key. -/
def lookupLang : Registry → String → Option Wordlist
  | [], _ => none
  | p :: ps, lang => if p.1 == lang then some p.2 else lookupLang ps lang

/-- setDefaultWordlist: on a registered language the returned wordlist
becomes the new DEFAULT_WORDLIST; otherwise the unknown-wordlist error
is thrown and the default is unchanged. -/
def setDefaultWordlist (reg : Registry) (language : String) :
    Outcome Wordlist :=
  match lookupLang reg language with
  | some result => .ok result
  | none => .error .unknownWordlist

/-- wordlists[lang].every((word, index) => word === DEFAULT[index]):
every word of the candidate list equals the default entry at the same
index; an index beyond the default compares a word against undefined
and fails. -/
def everyIndexEq : Wordlist → Wordlist → Bool
  | [], _ => true
  | _ :: _, [] => false
  | w :: ws, d :: ds => w == d && everyIndexEq ws ds

/-- getDefaultWordlist: throws when no default is set; otherwise the
first registered language, JA and EN excluded, whose list matches the
default index-by-index — possibly none (the JS undefined result). -/
def getDefaultWordlist (reg : Registry) (dflt : Option Wordlist) :
    Outcome (Option String) :=
  match dflt with
  | none => .error .noDefaultWordlist
  | some d =>
    .ok (((reg.filter
      (fun p => !(p.1 == "JA" || p.1 == "EN") && everyIndexEq p.2 d)).head?).map
        (fun p => p.1))

/-- Sequencing of throwing computations, used to state compositions such
as mnemonicToEntropy applied to the result of entropyToMnemonic. -/
def Outcome.andThen {α β : Type} : Outcome α → (α → Outcome β) → Outcome β
  | .ok a, f => f a
  | .error e, _ => .error e

/-- Concrete stand-in for the external sha256 primitive: a function with
the 32-byte digest shape, used to instantiate theorems at concrete
inputs. -/
def hashZero : List Nat → List Nat := fun _ => List.replicate 32 0

/-- Concrete stand-in for NFKD normalization on UTF-8 byte lists: the
identity, which is the behaviour of the real normalization on the
already-decomposed wordlists. -/
def idBytes : List Nat → List Nat := fun b => b

/-- The i-th word of the concrete stub wordlists: three lowercase ASCII
letters, distinct for every i below 2048 and containing no space. -/
def wordFor (i : Nat) : List Nat :=
  [97 + i / 676, 97 + i / 26 % 26, 97 + i % 26]

/-- A 2048-word wordlist whose first word is the Japanese first word, so
that entropyToMnemonic selects the ideographic-space separator. -/
def jaStubWordlist : Wordlist :=
  jaFirstWord :: (List.range 2047).map (fun i => wordFor (i + 1))

/-- A 2048-word ASCII wordlist (separator resolves to ASCII space). -/
def enStubWordlist : Wordlist :=
  (List.range 2048).map wordFor

/-- A second 2048-word ASCII wordlist, disjoint from enStubWordlist,
standing in for the Spanish wordlist of the registry. -/
def esStubWordlist : Wordlist :=
  (List.range 2048).map (fun i => wordFor i ++ [122])

/-- Concrete stand-in for the external rng: n zero bytes. -/
def rngZeros : Nat → List Nat := fun n => List.replicate n 0

/-- A 16-byte all-zero entropy buffer. -/
def zeros16 : List Nat := List.replicate 16 0

/-- Concrete stand-in for the external pbkdf2 primitive, injective
enough to exhibit the derivation arguments. -/
def pbkdf2Stub : List Nat → List Nat → Nat → Nat → String → List Nat :=
  fun password saltArg iterations keylen _ =>
    password ++ saltArg ++ [iterations, keylen]

/-- A concrete registry with JA, EN and ES languages, instantiating the
spec-modelled wordlist data with small distinct lists. -/
def regStub : Registry :=
  [("JA", [jaFirstWord]), ("EN", [[97]]), ("ES", [[98]])]

set_option maxRecDepth 40000

/-- Padding to 8 never shortens a bit string below 8. -/
lemma length_lpad8_ge (bits : List Bool) : 8 ≤ (lpad 8 bits).length := by
  simp [lpad]
  omega

/-- Every byte contributes at least 8 binary digits. -/
lemma le_length_bytesToBinary (bs : List Nat) :
    8 * bs.length ≤ (bytesToBinary bs).length := by
  induction bs with
  | nil => simp [bytesToBinary]
  | cons b rest ih =>
    have h8 := length_lpad8_ge (natToBits b)
    simp only [bytesToBinary, List.flatMap_cons, List.length_append,
      List.length_cons] at ih ⊢
    omega

/-- A value below 256 renders as exactly 8 binary digits after padding. -/
lemma lpad8_byte_length : ∀ b : Nat, b < 256 → (lpad 8 (natToBits b)).length = 8 := by
  decide

/-- On genuine byte values, bytesToBinary has exactly 8 digits per byte. -/
lemma bytesToBinary_length_of_bytes :
    ∀ bs : List Nat, (∀ b ∈ bs, b < 256) →
      (bytesToBinary bs).length = 8 * bs.length := by
  intro bs h
  induction bs with
  | nil => simp [bytesToBinary]
  | cons b rest ih =>
    have hb : b < 256 := h b (List.mem_cons_self b rest)
    have hrest : ∀ x ∈ rest, x < 256 := fun x hx => h x (List.mem_cons_of_mem b hx)
    simp only [bytesToBinary, List.flatMap_cons, List.length_append,
      List.length_cons] at ih ⊢
    rw [lpad8_byte_length b hb, ih hrest]
    omega

/-- Length of deriveChecksumBits: CS = ENT / 32, provided the digest has
its 32-byte shape and the entropy is at most 32 bytes. -/
lemma deriveChecksumBits_length (H : List Nat → List Nat) (e : List Nat)
    (h32 : (H e).length = 32) (hle : e.length ≤ 32) :
    (deriveChecksumBits H e).length = e.length * 8 / 32 := by
  have hbb := le_length_bytesToBinary (H e)
  rw [h32] at hbb
  rw [deriveChecksumBits, List.length_take, Nat.min_eq_left (by omega)]

/-- Chunk count of the 11-character grouping, fuel-general form. -/
lemma chunkAux11_length :
    ∀ (fuel : Nat) (l : List Bool), l.length ≤ fuel →
      (chunkAux 11 fuel l).length = (l.length + 10) / 11 := by
  intro fuel
  induction fuel with
  | zero =>
    intro l hl
    have h0 : l = [] := List.eq_nil_of_length_eq_zero (by omega)
    subst h0
    simp [chunkAux]
  | succ n ih =>
    intro l hl
    by_cases hnil : l = []
    · subst hnil
      simp [chunkAux]
    · have h1 : 0 < l.length := List.length_pos.2 hnil
      simp only [chunkAux, if_neg hnil, List.length_cons]
      rw [ih (l.drop 11) (by simp; omega)]
      simp only [List.length_drop]
      omega

/-- Chunk count of the 11-character grouping. -/
lemma chunkBits11_length (l : List Bool) :
    (chunkBits 11 l).length = (l.length + 10) / 11 :=
  chunkAux11_length l.length l (le_refl _)

/-- A 16-byte entropy buffer yields exactly 12 mnemonic words. -/
lemma mnemonicWords_length (H nfkd : List Nat → List Nat) (wl : Wordlist)
    (e : List Nat) (hb : ∀ b ∈ e, b < 256) (h32 : (H e).length = 32)
    (h16 : e.length = 16) :
    (mnemonicWords H nfkd wl e).length = 12 := by
  simp only [mnemonicWords, List.length_map, chunkBits11_length,
    List.length_append]
  rw [bytesToBinary_length_of_bytes e hb,
    deriveChecksumBits_length H e h32 (by omega), h16]

/-- Valid entropy lengths make entropyToMnemonic succeed with the
separator-joined normalized words. -/
lemma entropyToMnemonic_eq_ok (H nfkd : List Nat → List Nat) (e : List Nat)
    (wl : Wordlist) (dflt : Option Wordlist) (h1 : 16 ≤ e.length)
    (h2 : e.length ≤ 32) (h3 : e.length % 4 = 0) :
    entropyToMnemonic H nfkd e (some wl) dflt =
      .ok (joinWords (separatorFor wl) (mnemonicWords H nfkd wl e)) := by
  simp only [entropyToMnemonic, Option.orElse]
  split_ifs <;> first | rfl | omega

/-- C3: entropyToMnemonic joins the words with a single ASCII space,
except that when the first word of the resolved wordlist equals the
Japanese first word the separator is the ideographic space U+3000; the
output is the separator-joined sequence of normalized wordlist entries
selected by the 11-bit chunks. -/
theorem C3_separator_selection (H nfkd : List Nat → List Nat)
    (e : List Nat) (wl : Wordlist) (dflt : Option Wordlist)
    (h1 : 16 ≤ e.length) (h2 : e.length ≤ 32) (h3 : e.length % 4 = 0) :
    entropyToMnemonic H nfkd e (some wl) dflt =
      .ok (joinWords
        (if wl.headD [] = jaFirstWord then ideographicSpace else asciiSpace)
        (mnemonicWords H nfkd wl e)) :=
  entropyToMnemonic_eq_ok H nfkd e wl dflt h1 h2 h3

/-- Witness for C3: encoding 16 zero bytes with the Japanese-first-word
wordlist joins with U+3000, and with the ASCII wordlist joins with the
ASCII space. -/
theorem C3_separator_selection_witness :
    entropyToMnemonic hashZero idBytes zeros16 (some jaStubWordlist) none =
      .ok (joinWords ideographicSpace
        (mnemonicWords hashZero idBytes jaStubWordlist zeros16)) ∧
    entropyToMnemonic hashZero idBytes zeros16 (some enStubWordlist) none =
      .ok (joinWords asciiSpace
        (mnemonicWords hashZero idBytes enStubWordlist zeros16)) := by
  constructor
  · have h := C3_separator_selection hashZero idBytes zeros16 jaStubWordlist
      none (by decide) (by decide) (by decide)
    rwa [if_pos (by decide : jaStubWordlist.headD [] = jaFirstWord)] at h
  · have h := C3_separator_selection hashZero idBytes zeros16 enStubWordlist
      none (by decide) (by decide) (by decide)
    rwa [if_neg (by decide : ¬enStubWordlist.headD [] = jaFirstWord)] at h

/-- C4: validateMnemonic is true exactly when mnemonicToEntropy on the
same arguments succeeds, and false exactly when it throws, whatever the
error kind. -/
theorem C4_validateMnemonic_iff (H nfkd : List Nat → List Nat)
    (m : List Nat) (wordlist dflt : Option Wordlist) :
    (validateMnemonic H nfkd m wordlist dflt = true ↔
      ∃ hex, mnemonicToEntropy H nfkd (.str m) wordlist dflt = .ok hex) ∧
    (validateMnemonic H nfkd m wordlist dflt = false ↔
      ∃ e, mnemonicToEntropy H nfkd (.str m) wordlist dflt = .error e) := by
  unfold validateMnemonic
  cases h : mnemonicToEntropy H nfkd (.str m) wordlist dflt with
  | ok v => simp
  | error e => simp

/-- C5: entropyToMnemonic rejects entropy shorter than 16 bytes, longer
than 32 bytes, or of length not divisible by 4, with the invalid-entropy
error, and accepts every length in 16, 20, 24, 28, 32 when a wordlist is
available. -/
theorem C5_entropyToMnemonic_length_validation (H nfkd : List Nat → List Nat)
    (e : List Nat) (w : Wordlist) (dflt : Option Wordlist) :
    ((e.length < 16 ∨ 32 < e.length ∨ e.length % 4 ≠ 0) →
      entropyToMnemonic H nfkd e (some w) dflt = .error .invalidEntropy) ∧
    ((e.length = 16 ∨ e.length = 20 ∨ e.length = 24 ∨ e.length = 28 ∨
        e.length = 32) →
      ∃ buf, entropyToMnemonic H nfkd e (some w) dflt = .ok buf) := by
  constructor
  · intro h
    rcases h with h | h | h <;>
      · simp only [entropyToMnemonic, Option.orElse]
        split_ifs <;> first | rfl | omega
  · intro h
    refine ⟨joinWords (separatorFor w) (mnemonicWords H nfkd w e), ?_⟩
    exact entropyToMnemonic_eq_ok H nfkd e w dflt (by omega) (by omega) (by omega)

/-- Witness for C5: 15-, 33- and 17-byte buffers are rejected with the
invalid-entropy error and a 16-byte buffer is accepted. -/
theorem C5_entropyToMnemonic_length_validation_witness :
    entropyToMnemonic hashZero idBytes (List.replicate 15 0)
      (some enStubWordlist) none = .error .invalidEntropy ∧
    entropyToMnemonic hashZero idBytes (List.replicate 33 0)
      (some enStubWordlist) none = .error .invalidEntropy ∧
    entropyToMnemonic hashZero idBytes (List.replicate 17 0)
      (some enStubWordlist) none = .error .invalidEntropy ∧
    ∃ buf, entropyToMnemonic hashZero idBytes zeros16
      (some enStubWordlist) none = .ok buf :=
  ⟨(C5_entropyToMnemonic_length_validation hashZero idBytes
      (List.replicate 15 0) enStubWordlist none).1 (by decide),
   (C5_entropyToMnemonic_length_validation hashZero idBytes
      (List.replicate 33 0) enStubWordlist none).1 (by decide),
   (C5_entropyToMnemonic_length_validation hashZero idBytes
      (List.replicate 17 0) enStubWordlist none).1 (by decide),
   (C5_entropyToMnemonic_length_validation hashZero idBytes
      zeros16 enStubWordlist none).2 (by decide)⟩

/-- C6: deriveChecksumBits returns exactly (length * 8) / 32 binary
digits, the leading digits of the binary rendering of the 32-byte sha256
digest of the entropy; the function is a pure function of its input. -/
theorem C6_deriveChecksumBits_spec (H : List Nat → List Nat) (e : List Nat)
    (h32 : (H e).length = 32)
    (hlen : e.length = 16 ∨ e.length = 20 ∨ e.length = 24 ∨
      e.length = 28 ∨ e.length = 32) :
    (deriveChecksumBits H e).length = e.length * 8 / 32 ∧
    deriveChecksumBits H e =
      (bytesToBinary (H e)).take (e.length * 8 / 32) := by
  exact ⟨deriveChecksumBits_length H e h32 (by omega), rfl⟩

/-- Witness for C6: the checksum of a 16-byte buffer under the concrete
digest stub has exactly 4 digits. -/
theorem C6_deriveChecksumBits_spec_witness :
    (deriveChecksumBits hashZero zeros16).length = zeros16.length * 8 / 32 ∧
    deriveChecksumBits hashZero zeros16 =
      (bytesToBinary (hashZero zeros16)).take (zeros16.length * 8 / 32) :=
  C6_deriveChecksumBits_spec hashZero zeros16 (by decide) (by decide)

/-- C1: the round trip fails on the code for a Japanese wordlist: the
encoder joins the 12 words with the raw UTF-8 bytes of U+3000, the
decoder scans single bytes for 0x20 or 0x3000 and so never splits at
the three-byte U+3000 sequence, leaving one oversized word and the
invalid-mnemonic error instead of the hex encoding of the entropy. -/
theorem C1_japanese_roundtrip_fails :
    (entropyToMnemonic hashZero idBytes zeros16
      (some jaStubWordlist) none).isOk = true ∧
    Outcome.andThen
      (entropyToMnemonic hashZero idBytes zeros16 (some jaStubWordlist) none)
      (fun buf =>
        mnemonicToEntropy hashZero idBytes (.buf buf)
          (some jaStubWordlist) none) =
      .error .invalidMnemonic := by
  constructor
  · decide
  · decide

/-- C2: the byte scan of mnemonicToEntropy never splits at U+3000: on
the buffer of two Japanese words joined by the raw UTF-8 bytes of the
ideographic space, the splitter returns the whole buffer as one word
instead of the two words, and decoding throws the invalid-mnemonic
error. -/
theorem C2_u3000_never_splits :
    splitWords (jaFirstWord ++ ideographicSpace ++ jaFirstWord) =
      [jaFirstWord ++ ideographicSpace ++ jaFirstWord] ∧
    splitWords (jaFirstWord ++ ideographicSpace ++ jaFirstWord) ≠
      [jaFirstWord, jaFirstWord] ∧
    mnemonicToEntropy hashZero idBytes
      (.buf (jaFirstWord ++ ideographicSpace ++ jaFirstWord))
      (some jaStubWordlist) none = .error .invalidMnemonic := by
  refine ⟨by decide, by decide, by decide⟩

/-- C7: mnemonicToSeedSync is exactly the pbkdf2 primitive applied to
the NFKD-normalized UTF-8 mnemonic (a Buffer mnemonic unchanged) and
the salt "mnemonic" plus the normalized password (just "mnemonic" when
the password is absent), with 2048 iterations, 64-byte output and
sha512. -/
theorem C7_mnemonicToSeedSync_spec
    (pbkdf2 : List Nat → List Nat → Nat → Nat → String → List Nat)
    (nfkd : List Nat → List Nat) (hempty : nfkd [] = []) :
    (∀ s p, mnemonicToSeedSync pbkdf2 nfkd (.str s) (some p) =
      pbkdf2 (nfkd s) (mnemonicLiteral ++ nfkd p) 2048 64 "sha512") ∧
    (∀ b p, mnemonicToSeedSync pbkdf2 nfkd (.buf b) (some p) =
      pbkdf2 b (mnemonicLiteral ++ nfkd p) 2048 64 "sha512") ∧
    (∀ s, mnemonicToSeedSync pbkdf2 nfkd (.str s) none =
      pbkdf2 (nfkd s) mnemonicLiteral 2048 64 "sha512") ∧
    (∀ b, mnemonicToSeedSync pbkdf2 nfkd (.buf b) none =
      pbkdf2 b mnemonicLiteral 2048 64 "sha512") := by
  refine ⟨fun s p => rfl, fun b p => rfl, fun s => ?_, fun b => ?_⟩ <;>
    simp [mnemonicToSeedSync, saltBytes, normalizeOpt, hempty]

/-- Witness for C7: the derivation of a one-byte string mnemonic with no
password under concrete primitive stand-ins. -/
theorem C7_mnemonicToSeedSync_spec_witness :
    mnemonicToSeedSync pbkdf2Stub idBytes (.str [97]) none =
      pbkdf2Stub [97] mnemonicLiteral 2048 64 "sha512" :=
  (C7_mnemonicToSeedSync_spec pbkdf2Stub idBytes rfl).2.2.1 [97]

/-- Counterexample to C8: at strength 0 (which is divisible by 32, with
an rng that returns n zero bytes for every request n, hence 0 bytes for
strength/8 = 0), generateMnemonic does not delegate to
entropyToMnemonic(rng(0)): the falsy strength is replaced by 128, so the
call succeeds while entropyToMnemonic(rng(0)) throws invalid entropy. -/
theorem C8_counterexample_strength_zero :
    generateMnemonic hashZero idBytes (some 0) rngZeros
      (some enStubWordlist) none ≠
    entropyToMnemonic hashZero idBytes (rngZeros 0)
      (some enStubWordlist) none := by
  decide

/-- C8 amended: for every nonzero strength divisible by 32 the call
delegates to entropyToMnemonic over rng(strength / 8); an omitted
strength is taken as 128; a strength not divisible by 32 yields the
invalid-entropy error whatever the rng.  Strength 0 is excluded: being
falsy it is replaced by the default 128. -/
theorem C8_generateMnemonic_amended (H nfkd : List Nat → List Nat)
    (rng : Nat → List Nat) (wordlist dflt : Option Wordlist) :
    (∀ s, s ≠ 0 → s % 32 = 0 →
      generateMnemonic H nfkd (some s) rng wordlist dflt =
        entropyToMnemonic H nfkd (rng (s / 8)) wordlist dflt) ∧
    generateMnemonic H nfkd none rng wordlist dflt =
      entropyToMnemonic H nfkd (rng 16) wordlist dflt ∧
    (∀ s, s % 32 ≠ 0 →
      generateMnemonic H nfkd (some s) rng wordlist dflt =
        .error .invalidEntropy) := by
  refine ⟨fun s hs hdiv => ?_, rfl, fun s hdiv => ?_⟩
  · simp only [generateMnemonic, if_neg hs]
    rw [if_neg (by omega)]
  · have hs : s ≠ 0 := by omega
    simp only [generateMnemonic, if_neg hs]
    rw [if_pos hdiv]

/-- Witness for C8 amended: strength 128 delegates to entropyToMnemonic
over the 16 bytes returned by the rng. -/
theorem C8_generateMnemonic_amended_witness :
    generateMnemonic hashZero idBytes (some 128) rngZeros
      (some enStubWordlist) none =
      entropyToMnemonic hashZero idBytes (rngZeros 16)
        (some enStubWordlist) none :=
  (C8_generateMnemonic_amended hashZero idBytes rngZeros
    (some enStubWordlist) none).1 128 (by decide) (by decide)

/-- C10: strength 0 is falsy, so generateMnemonic(0) behaves exactly as
generateMnemonic(128) and as an omitted strength, and with a 16-byte rng
output and a 32-byte digest it produces a mnemonic of 12 words. -/
theorem C10_strength_zero_defaults (H nfkd : List Nat → List Nat)
    (rng : Nat → List Nat) (wordlist dflt : Option Wordlist) :
    generateMnemonic H nfkd (some 0) rng wordlist dflt =
      generateMnemonic H nfkd (some 128) rng wordlist dflt ∧
    generateMnemonic H nfkd (some 0) rng wordlist dflt =
      generateMnemonic H nfkd none rng wordlist dflt ∧
    (∀ w : Wordlist, (rng 16).length = 16 → (∀ b ∈ rng 16, b < 256) →
      (H (rng 16)).length = 32 →
      generateMnemonic H nfkd (some 0) rng (some w) dflt =
        .ok (joinWords (separatorFor w) (mnemonicWords H nfkd w (rng 16))) ∧
      (mnemonicWords H nfkd w (rng 16)).length = 12) := by
  refine ⟨rfl, rfl, fun w hlen hb h32 => ⟨?_, ?_⟩⟩
  · show entropyToMnemonic H nfkd (rng (128 / 8)) (some w) dflt = _
    exact entropyToMnemonic_eq_ok H nfkd (rng 16) w dflt (by omega) (by omega)
      (by omega)
  · exact mnemonicWords_length H nfkd w (rng 16) hb h32 hlen

/-- Witness for C10: with the concrete zero rng and digest stub,
strength 0 yields the space-joined 12-word mnemonic. -/
theorem C10_strength_zero_defaults_witness :
    generateMnemonic hashZero idBytes (some 0) rngZeros
      (some enStubWordlist) none =
      .ok (joinWords (separatorFor enStubWordlist)
        (mnemonicWords hashZero idBytes enStubWordlist (rngZeros 16))) ∧
    (mnemonicWords hashZero idBytes enStubWordlist (rngZeros 16)).length = 12 :=
  (C10_strength_zero_defaults hashZero idBytes rngZeros
    (some enStubWordlist) none).2.2 enStubWordlist (by decide) (by decide)
    (by decide)

/-- A wordlist matches itself index-by-index. -/
lemma everyIndexEq_refl : ∀ w : Wordlist, everyIndexEq w w = true := by
  intro w
  induction w with
  | nil => rfl
  | cons a as ih => simp [everyIndexEq, ih]

/-- A successful registry lookup is a membership. -/
lemma lookupLang_mem :
    ∀ (reg : Registry) (lang : String) (w : Wordlist),
      lookupLang reg lang = some w → (lang, w) ∈ reg := by
  intro reg
  induction reg with
  | nil => intro lang w h; cases h
  | cons p ps ih =>
    intro lang w h
    obtain ⟨p1, p2⟩ := p
    by_cases hp : p1 == lang
    · simp only [lookupLang] at h
      rw [if_pos hp] at h
      cases h
      have hpl : p1 = lang := by simpa using hp
      subst hpl
      exact List.mem_cons_self _ _
    · simp only [lookupLang] at h
      rw [if_neg hp] at h
      exact List.mem_cons_of_mem _ (ih lang w h)

/-- When some member passes the filter and every passing member has key
"ES", the first filtered key is "ES". -/
lemma filter_head_key_ES (P : String × Wordlist → Bool) :
    ∀ (reg : Registry) (q : String × Wordlist), q ∈ reg → P q = true →
      (∀ p ∈ reg, P p = true → p.1 = "ES") →
      ((reg.filter P).head?).map (fun p => p.1) = some "ES" := by
  intro reg
  induction reg with
  | nil => intro q hq _ _; cases hq
  | cons a as ih =>
    intro q hq hqP hall
    by_cases ha : P a
    · rw [List.filter_cons_of_pos ha]
      simp only [List.head?_cons, Option.map_some]
      exact congrArg some (hall a (List.mem_cons_self a as) ha)
    · rw [List.filter_cons_of_neg (by simpa using ha)]
      rcases List.mem_cons.1 hq with hqa | hqas
      · subst hqa; exact absurd hqP (by simpa using ha)
      · exact ih q hqas hqP
          (fun p hp hP => hall p (List.mem_cons_of_mem a hp) hP)

/-- C9: when "ES" is registered and is the first language outside JA and
EN whose wordlist matches its own entries index-by-index, a successful
setDefaultWordlist("ES") installs the Spanish wordlist and the next
getDefaultWordlist returns "ES"; the reverse scan excludes JA and EN and
takes the first index-by-index match with the current default. -/
theorem C9_setDefault_then_get (reg : Registry) (w : Wordlist)
    (hlook : lookupLang reg "ES" = some w)
    (hfirst : ∀ p ∈ reg, p.1 ≠ "JA" → p.1 ≠ "EN" →
      everyIndexEq p.2 w = true → p.1 = "ES") :
    setDefaultWordlist reg "ES" = .ok w ∧
    getDefaultWordlist reg (some w) = .ok (some "ES") := by
  constructor
  · unfold setDefaultWordlist
    rw [hlook]
  · have hmem : ("ES", w) ∈ reg := lookupLang_mem reg "ES" w hlook
    have hq : (!((("ES", w) : String × Wordlist).1 == "JA" ||
        (("ES", w) : String × Wordlist).1 == "EN") &&
        everyIndexEq (("ES", w) : String × Wordlist).2 w) = true := by
      simp [everyIndexEq_refl]
    have hall : ∀ p ∈ reg,
        (!(p.1 == "JA" || p.1 == "EN") && everyIndexEq p.2 w) = true →
        p.1 = "ES" := by
      intro p hp hP
      simp only [Bool.and_eq_true, Bool.not_eq_true', Bool.or_eq_false_iff,
        beq_eq_false_iff_ne] at hP
      exact hfirst p hp hP.1.1 hP.1.2 hP.2
    have hred : getDefaultWordlist reg (some w) =
        .ok (((reg.filter
          (fun p => !(p.1 == "JA" || p.1 == "EN") &&
            everyIndexEq p.2 w)).head?).map (fun p => p.1)) := rfl
    rw [hred, filter_head_key_ES _ reg ("ES", w) hmem hq hall]

/-- Witness for C9: the concrete three-language registry with the ES
stub wordlist. -/
theorem C9_setDefault_then_get_witness :
    setDefaultWordlist regStub "ES" = .ok [[98]] ∧
    getDefaultWordlist regStub (some [[98]]) = .ok (some "ES") :=
  C9_setDefault_then_get regStub [[98]] (by decide) (by decide)

/-- Sanity check of the embedding: with an ASCII-space wordlist the
encode-decode composition does return the lowercase hex encoding of the
entropy (16 zero bytes encode to 32 ASCII "0" characters), so the
failure recorded against the Japanese separator is specific to the
U+3000 handling. -/
lemma roundtrip_ascii_sanity :
    Outcome.andThen
      (entropyToMnemonic hashZero idBytes zeros16 (some enStubWordlist) none)
      (fun buf =>
        mnemonicToEntropy hashZero idBytes (.buf buf)
          (some enStubWordlist) none) =
      .ok (List.replicate 32 48) := by
  decide
